import Mathlib

/-!
Shallow embedding of the surf HTTP client library (package surf) and
verification of claims about its request pipeline.

Go strings are modelled as lists of characters (`GoString`); the claims only
exercise ASCII data, where Go byte strings and character lists coincide.
Go maps and nil-able slices are modelled with `Option`; `http.Header` is an
association list preserving insertion order, with `Get`, `Set` and `Add`
matching the textproto semantics on the canonical keys the library uses.
-/

namespace Surf

/-- A Go string, modelled as a list of characters. -/
abbrev GoString := List Char

/-- Equality of `Except` values is decidable when it is on both sides. -/
instance {ε α : Type} [DecidableEq ε] [DecidableEq α] : DecidableEq (Except ε α) := fun x y =>
  match x, y with
  | .ok a, .ok b => if h : a = b then isTrue (by rw [h]) else isFalse (by simp [h])
  | .error a, .error b => if h : a = b then isTrue (by rw [h]) else isFalse (by simp [h])
  | .ok _, .error _ => isFalse (by simp)
  | .error _, .ok _ => isFalse (by simp)

/-- Embeds a Lean string literal as a `GoString`. -/
def str (s : String) : GoString := s.toList

/-- Models Go `strings.Contains s sub`: `sub` occurs as a substring of `s`. -/
def goContains (s sub : GoString) : Bool := decide (sub <:+: s)

/-- Models Go `strings.HasSuffix s suf`. -/
def goHasSuffix (s suf : GoString) : Bool := decide (suf <:+ s)

/-- Models Go `strings.TrimLeft s "/"`: drop every leading slash. -/
def goTrimLeftSlash (s : GoString) : GoString := s.dropWhile (fun c => c = '/')

/-- Models Go `strings.Replace s pat rep -1`: replace every non-overlapping
occurrence of `pat` in `s` from left to right.  The library only calls it
with the non-empty pattern `":" + key`, so the empty-pattern insertion
behaviour of Go is not modelled. -/
def goReplaceAll (pat rep : GoString) : GoString → GoString
  | [] => []
  | c :: rest =>
    match pat with
    | [] => c :: rest
    | _ :: ps =>
      if pat.isPrefixOf (c :: rest) then
        rep ++ goReplaceAll pat rep (rest.drop ps.length)
      else
        c :: goReplaceAll pat rep rest
termination_by s => s.length
decreasing_by
  · simp only [List.length_cons, List.length_drop]
    omega
  · simp only [List.length_cons]
    omega

/-- Go `http.Header`: an ordered association list from header keys to value
lists.  The library always addresses headers through the canonical constants
produced by `http.CanonicalHeaderKey`, so key canonicalisation is a no-op
here. -/
abbrev Header := List (GoString × List GoString)

/-- Models `http.Header.Get`: the first value stored under the key, or the
empty string when the key is absent or has no values. -/
def hGet (h : Header) (k : GoString) : GoString :=
  match h.find? (fun kv => kv.1 = k) with
  | some (_, v :: _) => v
  | _ => []

/-- Models `http.Header.Set`: replace the value list of the key with the
single given value, keeping the position of an existing entry. -/
def hSet (h : Header) (k v : GoString) : Header :=
  match h with
  | [] => [(k, [v])]
  | kv :: rest => if kv.1 = k then (k, [v]) :: rest else kv :: hSet rest k v

/-- Models `http.Header.Add`: append the value to the value list of the key,
creating the entry if absent. -/
def hAdd (h : Header) (k v : GoString) : Header :=
  match h with
  | [] => [(k, [v])]
  | kv :: rest => if kv.1 = k then (kv.1, kv.2 ++ [v]) :: rest else kv :: hAdd rest k v

/-! Header-name and default-value constants of the library
(constants.go as shipped with the current sources). -/

def keyContentType : GoString := str "Content-Type"
def keyContentEncoding : GoString := str "Content-Encoding"
def keyContentLength : GoString := str "Content-Length"
def keyLocation : GoString := str "Location"
def keyCookie : GoString := str "Cookie"

def defaultJsonContentType : GoString := str "application/json; charset=UTF-8"
def defaultTextContentType : GoString := str "text/plain; charset=UTF-8"
def defaultStreamContentType : GoString := str "application/octet-stream"
def defaultFormContentType : GoString := str "application/x-www-form-urlencoded; charset=UTF-8"

/-! ## Query encoding (net/url Values.Encode) -/

/-- Go `url.Values`: a map from keys to value lists, modelled as an
association list with distinct keys. -/
abbrev Values := List (GoString × List GoString)

/-- True when the byte is left unescaped by Go `url.QueryEscape`:
alphanumerics and `-_.~`. -/
def queryUnreserved (c : Char) : Bool :=
  c.isAlpha ∨ c.isDigit ∨ c = '-' ∨ c = '_' ∨ c = '.' ∨ c = '~'

/-- One hexadecimal digit, upper case, as used by Go percent-escaping. -/
def hexDigit (n : Nat) : Char :=
  if n < 10 then Char.ofNat ('0'.toNat + n) else Char.ofNat ('A'.toNat + n - 10)

/-- Models Go `url.QueryEscape` on ASCII input: unreserved bytes pass
through, a space becomes `+`, every other byte becomes `%XX`.  Go escapes
non-ASCII characters per UTF-8 byte; the pipeline claims only exercise
ASCII data, which is what this models. -/
def queryEscape (s : GoString) : GoString :=
  s.flatMap fun c =>
    if queryUnreserved c then [c]
    else if c = ' ' then ['+']
    else ['%', hexDigit (c.toNat / 16 % 16), hexDigit (c.toNat % 16)]

/-- Lexicographic byte order on strings, as used by Go `sort.Strings`. -/
def goStrLe : GoString → GoString → Bool
  | [], _ => true
  | _ :: _, [] => false
  | a :: as, b :: bs =>
    if a.toNat < b.toNat then true
    else if b.toNat < a.toNat then false
    else goStrLe as bs

/-- Insertion into a key-sorted list, keyed by `goStrLe` on the first
component. -/
def insertByKey (kv : GoString × List GoString) : Values → Values
  | [] => [kv]
  | kv1 :: rest =>
    if goStrLe kv.1 kv1.1 then kv :: kv1 :: rest else kv1 :: insertByKey kv rest

/-- Sorts the entries of a `Values` map by key, modelling the key sort Go
`url.Values.Encode` performs before serialising. -/
def sortValues (vs : Values) : Values := vs.foldr insertByKey []

/-- Serialises one key with its value list: `k=v1&k=v2&...`, both sides
query-escaped. -/
def encodeOneKey (k : GoString) (vals : List GoString) : List GoString :=
  vals.map fun v => queryEscape k ++ ['='] ++ queryEscape v

/-- Joins string pieces with a separator character. -/
def joinWith (sep : Char) : List GoString → GoString
  | [] => []
  | [p] => p
  | p :: rest => p ++ sep :: joinWith sep rest

/-- Models Go `url.Values.Encode`: keys sorted, each key/value pair
percent-encoded and joined with `&`. -/
def goValuesEncode (vs : Values) : GoString :=
  joinWith '&' ((sortValues vs).flatMap fun kv => encodeOneKey kv.1 kv.2)

/-! ## RequestConfig (config.go) -/

/-- The request body variants the `getRequestBody` type switch
distinguishes (config.go).  `reader` stands for an `io.Reader` value,
identified by an opaque stream id; `multipartFile` carries the outcome of
its `Bytes()` serialisation together with its `FormDataContentType()`;
`structured` is any other value, handed to a marshaller as an opaque
payload. -/
inductive Body where
  | reader (id : Nat)
  | bytes (bs : GoString)
  | multipartFile (content : Except GoString GoString) (contentType : GoString)
  | urlValues (vs : Values)
  | string (s : GoString)
  | structured (v : GoString)

/-- The fields of `surf.RequestConfig` the verified pipeline reads.  Nil
maps, nil `url.Values` and a nil body are `none`; the two-level
`QuerySerializer` option mirrors the Go checks `rc.QuerySerializer != nil`
and `rc.QuerySerializer.Encode != nil`.  The marshal fields model the
`JSONMarshal` / `XMLMarshal` function values, producing either the encoded
bytes or an error value. -/
structure RequestConfig where
  BaseURL : GoString := []
  Url : GoString := []
  Header : Header := []
  Method : GoString := []
  Params : Option (List (GoString × GoString)) := none
  Query : Option Values := none
  QuerySerializer : Option (Option (Values → GoString)) := none
  Body : Option Body := none
  MaxBodyLength : Int := 0
  MaxRedirects : Int := 0
  JSONMarshal : GoString → Except GoString GoString := fun s => Except.ok s
  XMLMarshal : GoString → Except GoString GoString := fun s => Except.ok s

/-- Models `RequestConfig.BuildQuery` (config.go): use the configured
serialiser when present with a non-nil encoder, otherwise the default
`url.Values.Encode`; an unset query yields the empty string. -/
def BuildQuery (rc : RequestConfig) : GoString :=
  match rc.Query with
  | none => []
  | some q =>
    match rc.QuerySerializer with
    | some (some enc) => enc q
    | _ => goValuesEncode q

/-- Models `RequestConfig.appendQueryToURL` (config.go): replace every
`:key` placeholder with its parameter value (plain substring replacement,
Go map iteration modelled in list order), then append the query string with
`?` or `&` depending on whether the URL already contains `?`. -/
def appendQueryToURL (rc : RequestConfig) (u : GoString) : GoString :=
  let u1 :=
    match rc.Params with
    | none => u
    | some ps => ps.foldl (fun acc kv => goReplaceAll (':' :: kv.1) kv.2 acc) u
  match rc.Query with
  | none => u1
  | some _ =>
    if goContains u1 (str "?") then u1 ++ '&' :: BuildQuery rc
    else u1 ++ '?' :: BuildQuery rc

/-- Models `RequestConfig.BuildURL` (config.go).  `urlParse` stands for the
net/url round trip `url.Parse` followed by `URL.String`; on the URLs this
code constructs from well-formed component strings the round trip is the
identity, and a parse failure (`none`) makes `BuildURL` return the empty
string, matching the fail-soft contract of the source. -/
def BuildURL (urlParse : GoString → Option GoString) (rc : RequestConfig) : GoString :=
  let baseURL := rc.BaseURL
  if baseURL = [] then
    appendQueryToURL rc rc.Url
  else if goContains rc.Url (str "://") then
    rc.Url
  else
    let baseURL1 := if goHasSuffix baseURL (str "/") then baseURL else baseURL ++ ['/']
    let urlPath := goTrimLeftSlash rc.Url
    let baseURL2 := if goContains baseURL1 (str "://") then baseURL1 else str "https://" ++ baseURL1
    match urlParse (baseURL2 ++ urlPath) with
    | none => []
    | some u => appendQueryToURL rc u

/-! ## Body resolution (config.go getRequestBody / setContentTypeHeader) -/

/-- Modelled from the spec: the regular expression `regXmlHeader` used by
`getRequestBody` is referenced but not defined in the provided sources; the
spec describes it as recognising an XML-like content type. -/
def regXmlHeaderMatch (ct : GoString) : Bool := goContains ct (str "xml")

/-- Modelled from the spec: the regular expression `regJsonHeader` used by
`getRequestBody` is referenced but not defined in the provided sources; the
spec describes the non-XML structured case as the JSON content type. -/
def regJsonHeaderMatch (ct : GoString) : Bool := goContains ct (str "json")

/-- Errors surfaced by `getRequestBody`: the sentinel
`ErrRequestDataTypeInvalid` (errors.go), or an error value produced by a
marshaller or by the multipart serialiser and propagated as-is. -/
inductive BodyErr where
  | requestDataTypeInvalid
  | external (msg : GoString)
deriving DecidableEq

/-- The reader value `getRequestBody` hands to the request constructor: the
original `io.Reader` passed through, or a `bytes.Reader` over produced
bytes. -/
inductive Reader where
  | passthrough (id : Nat)
  | bytesReader (bs : GoString)
deriving DecidableEq

/-- Models `RequestConfig.getRequestBody` (config.go).  Returns the
possibly updated configuration (the multipart branch sets the content-type
header as a side effect) together with the produced reader; a nil body
yields no reader.  In the default branch the currently-set content-type
header selects the marshaller: an XML-like value the XML marshaller, a
JSON-like value the JSON marshaller, anything else (including an unset
header) the `ErrRequestDataTypeInvalid` error; a marshaller error is
returned unchanged. -/
def getRequestBody (rc : RequestConfig) : Except BodyErr (RequestConfig × Option Reader) :=
  match rc.Body with
  | none => .ok (rc, none)
  | some (.reader id) => .ok (rc, some (.passthrough id))
  | some (.bytes bs) => .ok (rc, some (.bytesReader bs))
  | some (.multipartFile content contentType) =>
    match content with
    | .ok b => .ok ({ rc with Header := hSet rc.Header keyContentType contentType }, some (.bytesReader b))
    | .error e => .error (.external e)
  | some (.urlValues vs) => .ok (rc, some (.bytesReader (goValuesEncode vs)))
  | some (.string s) => .ok (rc, some (.bytesReader s))
  | some (.structured v) =>
    let contentType := hGet rc.Header keyContentType
    if contentType ≠ [] ∧ regXmlHeaderMatch contentType then
      match rc.XMLMarshal v with
      | .ok xmlData => .ok (rc, some (.bytesReader xmlData))
      | .error xmlErr => .error (.external xmlErr)
    else if contentType ≠ [] ∧ regJsonHeaderMatch contentType then
      match rc.JSONMarshal v with
      | .ok jsonData => .ok (rc, some (.bytesReader jsonData))
      | .error jsonErr => .error (.external jsonErr)
    else
      .error .requestDataTypeInvalid

/-- Models `RequestConfig.setContentTypeHeader` (config.go): a no-op when a
content-type header is already present, otherwise a default chosen by the
Go type switch on the body.  A nil body interface matches no typed case of
a Go type switch and therefore falls into the `default` branch, as does the
pointer `*multipartFile` body (the switch lists the value type
`multipartFile`, which the pointer does not match, and `*multipartFile` has
no `Read` method, so it is not an `io.Reader` either). -/
def setContentTypeHeader (rc : RequestConfig) : RequestConfig :=
  if hGet rc.Header keyContentType ≠ [] then rc
  else
    match rc.Body with
    | some (.string _) => { rc with Header := hSet rc.Header keyContentType defaultTextContentType }
    | some (.bytes _) => { rc with Header := hSet rc.Header keyContentType defaultStreamContentType }
    | some (.reader _) => rc
    | some (.urlValues _) => { rc with Header := hSet rc.Header keyContentType defaultFormContentType }
    | some (.multipartFile _ _) => { rc with Header := hSet rc.Header keyContentType defaultJsonContentType }
    | some (.structured _) => { rc with Header := hSet rc.Header keyContentType defaultJsonContentType }
    | none => { rc with Header := hSet rc.Header keyContentType defaultJsonContentType }

/-- The two body-related steps `prepareRequest` (surf.go) runs on a
configuration: resolve the body via `getRequestBody`, then infer a default
content type via `setContentTypeHeader`.  The header/cookie copies and
interceptor invocations between them in the source are independent of these
two steps and are modelled separately; this composition is the
body-resolution/content-type behaviour for a configuration no interceptor
touches. -/
def bodyContentTypeStep (rc : RequestConfig) : Except BodyErr RequestConfig :=
  match getRequestBody rc with
  | .error e => .error e
  | .ok (rc1, _) => .ok (setContentTypeHeader rc1)

/-! ## Response decoding (utils.go readBody) -/

/-- Models Go `strconv.Atoi` syntax acceptance: an optional sign followed
by at least one digit, nothing else.  The int-range clamping of Go on
overflow is not modelled; the claims only involve in-range lengths. -/
def goAtoiOk (s : GoString) : Bool :=
  match s with
  | [] => false
  | c :: rest =>
    let digits := if c = '+' ∨ c = '-' then rest else c :: rest
    digits ≠ [] ∧ digits.all (fun d => d.isDigit)

/-- Digit-string value. -/
def digitsVal (s : GoString) : Nat :=
  s.foldl (fun acc d => 10 * acc + (d.toNat - '0'.toNat)) 0

/-- Models the value of `v, _ := strconv.Atoi(s)` with the error ignored:
the signed value on valid syntax, `0` otherwise. -/
def goAtoi (s : GoString) : Int :=
  if goAtoiOk s then
    match s with
    | '-' :: rest => -(digitsVal rest : Int)
    | '+' :: rest => (digitsVal rest : Int)
    | _ => (digitsVal s : Int)
  else 0

/-- An HTTP response as `readBody` sees it: status code, the method of the
request that produced it (`res.Request.Method` in the source), headers and
the raw body bytes of the scripted transport. -/
structure Resp where
  statusCode : Nat
  reqMethod : GoString
  headers : Header
  body : GoString
deriving DecidableEq

/-- The decompression codecs `readBody` consumes from external libraries
(compress/gzip, compress/flate, dsnet brotli).  Constructing a gzip or
brotli reader can fail eagerly — Go `gzip.NewReader` reads and validates
the stream header before any size check can run — which `gzipNew` and
`brotliNew` model; the decode functions model reading the wrapped stream to
end, producing the decoded bytes or a read error. -/
structure Codecs where
  gzipNew : GoString → Except GoString Unit
  gzipDecode : GoString → Except GoString GoString
  brotliNew : GoString → Except GoString Unit
  brotliDecode : GoString → Except GoString GoString
  deflateDecode : GoString → Except GoString GoString

/-- The error outcomes of `readBody` (utils.go), one constructor per
`fmt.Errorf` site. -/
inductive RBErr where
  | gzipReaderFailed (msg : GoString)
  | brotliReaderFailed (msg : GoString)
  | bodyTooLarge (max : Int)
  | readFailed (msg : GoString)
deriving DecidableEq

/-- The encoding-selection switch of `readBody` (utils.go): pick the
decompression transform dictated by the `Content-Encoding` header, unless
the status was 204 No Content and the request method was HEAD, in which
case the raw stream is used untouched.  Reader-construction failures
surface here, before the size guard of `readBody` runs, exactly as in the
source. -/
def selectReader (cs : Codecs) (res : Resp) : Except RBErr (GoString → Except GoString GoString) :=
  let encoding := hGet res.headers keyContentEncoding
  if res.statusCode ≠ 204 ∨ res.reqMethod ≠ str "HEAD" then
    if encoding = str "gzip" ∨ encoding = str "x-gzip" ∨ encoding = str "compress" ∨ encoding = str "x-compress" then
      match cs.gzipNew res.body with
      | .error e => .error (.gzipReaderFailed e)
      | .ok _ => .ok cs.gzipDecode
    else if encoding = str "br" then
      match cs.brotliNew res.body with
      | .error e => .error (.brotliReaderFailed e)
      | .ok _ => .ok cs.brotliDecode
    else if encoding = str "deflate" then
      .ok cs.deflateDecode
    else
      .ok (fun b => .ok b)
  else
    .ok (fun b => .ok b)

/-- The declared size `readBody` computes: `0`, overwritten by the ignored-
error `strconv.Atoi` of a present `Content-Length` header. -/
def declaredSize (res : Resp) : Int :=
  let contentLength := hGet res.headers keyContentLength
  if contentLength ≠ [] then goAtoi contentLength else 0

/-- Models `readBody` (utils.go): wrap the stream per `Content-Encoding`
(via `selectReader`), then reject a declared `Content-Length` above a
positive `maxBodyLength`, then read the wrapped stream to end via
`readAllInitCap` — whose initial-capacity hint never changes the bytes
returned and is therefore not part of the value model.  Decode failures
during the read surface as the wrapped read error of the source. -/
def readBody (cs : Codecs) (res : Resp) (maxBodyLength : Int) : Except RBErr GoString :=
  match selectReader cs res with
  | .error e => .error e
  | .ok decode =>
    if maxBodyLength > 0 ∧ declaredSize res > maxBodyLength then
      .error (.bodyTooLarge maxBodyLength)
    else
      match decode res.body with
      | .error e => .error (.readFailed e)
      | .ok data => .ok data

/-! ## Interceptor chains (config.go, surf.go) -/

/-- A request interceptor receives the request configuration through a
pointer, may mutate it, and returns an error or nil; modelled as a function
from the configuration to the updated configuration plus an optional error
message.  Mutations made before a failure persist, as with the pointer in
the source. -/
abbrev RequestInterceptor := RequestConfig → RequestConfig × Option GoString

/-- Models `Config.invokeRequestInterceptors` and the identically shaped
`RequestConfig.invokeRequestInterceptors` (config.go): call each
interceptor in list order, stopping at — and returning — the first error. -/
def invokeRequestInterceptors : List RequestInterceptor → RequestConfig → RequestConfig × Option GoString
  | [], rc => (rc, none)
  | fn :: rest, rc =>
    match fn rc with
    | (rc1, some e) => (rc1, some e)
    | (rc1, none) => invokeRequestInterceptors rest rc1

/-- The request-phase interceptor step of `prepareRequest` (surf.go):
invoke the profile-level chain; on error, abort with that error; otherwise
invoke the descriptor-level chain the same way. -/
def requestInterceptorPhase (profile descriptor : List RequestInterceptor)
    (rc : RequestConfig) : RequestConfig × Option GoString :=
  match invokeRequestInterceptors profile rc with
  | (rc1, some e) => (rc1, some e)
  | (rc1, none) => invokeRequestInterceptors descriptor rc1

/-- The materialised response handed to response interceptors. -/
structure SurfResponse where
  originalResponse : Resp
  body : GoString
deriving DecidableEq

/-- A response interceptor inspects the materialised response and returns
an error or nil; the in-place annotations the source permits do not affect
any verified claim and are not modelled. -/
abbrev ResponseInterceptor := SurfResponse → Option GoString

/-- Models `Config.invokeResponseInterceptors` (config.go): call each
interceptor in order, stopping at the first error. -/
def invokeResponseInterceptors : List ResponseInterceptor → SurfResponse → Option GoString
  | [], _ => none
  | fn :: rest, r =>
    match fn r with
    | some e => some e
    | none => invokeResponseInterceptors rest r

/-! ## The redirect loop of Surf.Request (surf.go) -/

/-- The wire request the loop re-issues: method, target URL, header map and
the body stream, the latter modelled as an opaque stream reference so that
re-use of the same reader across hops is visible as equality. -/
structure WireRequest where
  method : GoString
  url : GoString
  headers : Header
  body : Option Nat
deriving DecidableEq

/-- Models `http.NewRequestWithContext`: a fresh request with empty headers
carrying the given method, URL and body stream.  The URL-parse failure path
of the constructor is not exercised by any claim and is not modelled. -/
def newRequest (method url : GoString) (body : Option Nat) : WireRequest :=
  { method := method, url := url, headers := [], body := body }

/-- Splits a list at every occurrence of the separator character. -/
def splitChar (sep : Char) : GoString → List GoString
  | [] => [[]]
  | c :: rest =>
    if c = sep then [] :: splitChar sep rest
    else
      match splitChar sep rest with
      | [] => [[c]]
      | p :: ps => (c :: p) :: ps

/-- Trims leading and trailing spaces, as textproto string trimming does on
ASCII cookie text. -/
def trimSpaces (s : GoString) : GoString :=
  ((s.dropWhile (fun c => c = ' ')).reverse.dropWhile (fun c => c = ' ')).reverse

/-- Cuts a list at the first occurrence of the separator, modelling Go
`strings.Cut`; `none` when the separator does not occur. -/
def cutChar (sep : Char) : GoString → Option (GoString × GoString)
  | [] => none
  | c :: rest =>
    if c = sep then some ([], rest)
    else
      match cutChar sep rest with
      | some (l, r) => some (c :: l, r)
      | none => none

/-- Models `http.Request.Cookies`: parse the `Cookie` header line, cutting
at `;`, trimming spaces, and splitting each part at the first `=`; parts
without `=` are dropped.  Attribute validation and quoting do not arise on
the cookie lines this library itself serialises. -/
def parseCookieLine (line : GoString) : List (GoString × GoString) :=
  (splitChar ';' line).filterMap fun part =>
    let part := trimSpaces part
    match cutChar '=' part with
    | some (name, val) => if name = [] then none else some (name, val)
    | none => none

/-- Models `http.Request.AddCookie`: serialise the cookie as `name=value`
and append it to the `Cookie` header, after `"; "` when one is already
present.  The character sanitisation of the source never alters the cookie
texts the claims use. -/
def addCookie (req : WireRequest) (c : GoString × GoString) : WireRequest :=
  let s := c.1 ++ '=' :: c.2
  let old := hGet req.headers keyCookie
  if old ≠ [] then
    { req with headers := hSet req.headers keyCookie (old ++ str "; " ++ s) }
  else
    { req with headers := hSet req.headers keyCookie s }

/-- The redirected-request construction of `Surf.Request` (surf.go): clone
the prior request headers (`req.Header.Clone()`), collect the prior request
cookies (`req.Cookies()`), build a new request for the configured method
and the `Location` URL re-using the same body stream, install the cloned
headers, and re-add every collected cookie through `AddCookie`. -/
def redirectStep (cfg : RequestConfig) (req : WireRequest) (location : GoString) : WireRequest :=
  let originHeader := req.headers
  let originCookies := parseCookieLine (hGet req.headers keyCookie)
  let req1 := newRequest cfg.Method location req.body
  let req2 := { req1 with headers := originHeader }
  originCookies.foldl addCookie req2

/-- Terminal errors of `Surf.Request` modelled by the loop. -/
inductive SurfError where
  | redirectMissingLocation
  | maxRedirectsExceeded (max : Int)
  | readBodyFailed (e : RBErr)
  | interceptorFailed (msg : GoString)
deriving DecidableEq

/-- The outcome of driving the `Surf.Request` loop against a scripted
transport: a materialised response, a terminal error, or — when the
scripted responses are exhausted — the wire request the next transport call
would send, which makes "no further transport call is made" claims
directly observable. -/
inductive RunOutcome where
  | success (resp : SurfResponse)
  | failure (e : SurfError)
  | awaitingTransport (req : WireRequest)
deriving DecidableEq

/-- Models the `for` loop of `Surf.Request` (surf.go), driven by the list
of responses a scripted transport returns from successive `Client.Do`
calls.  A 3xx response without a `Location` header fails at once; with one,
the redirected request is built, the redirect counter incremented and
checked against a positive `MaxRedirects`, and the loop continues.  Any
other response is decoded by `readBody` under `MaxBodyLength`, then passed
through the profile-level and request-level response interceptor chains.
Per-attempt performance recording has no effect on the returned value and
is not modelled. -/
def requestLoop (cs : Codecs) (profileRespInts reqRespInts : List ResponseInterceptor)
    (cfg : RequestConfig) (req : WireRequest) (redirects : Int) :
    List Resp → RunOutcome
  | [] => .awaitingTransport req
  | resp :: rest =>
    if 300 ≤ resp.statusCode ∧ resp.statusCode < 400 then
      let location := hGet resp.headers keyLocation
      if location = [] then
        .failure .redirectMissingLocation
      else
        let req1 := redirectStep cfg req location
        let redirects1 := redirects + 1
        if cfg.MaxRedirects > 0 ∧ redirects1 > cfg.MaxRedirects then
          .failure (.maxRedirectsExceeded cfg.MaxRedirects)
        else
          requestLoop cs profileRespInts reqRespInts cfg req1 redirects1 rest
    else
      match readBody cs resp cfg.MaxBodyLength with
      | .error e => .failure (.readBodyFailed e)
      | .ok body =>
        let response : SurfResponse := { originalResponse := resp, body := body }
        match invokeResponseInterceptors profileRespInts response with
        | some e => .failure (.interceptorFailed e)
        | none =>
          match invokeResponseInterceptors reqRespInts response with
          | some e => .failure (.interceptorFailed e)
          | none => .success response

/-! ## Concrete fixtures used by the claim theorems and witnesses -/

/-- Drops every trailing slash; used to state the separator-normalisation
property of `BuildURL`. -/
def stripTrailingSlashes (s : GoString) : GoString :=
  (s.reverse.dropWhile (fun c => c = '/')).reverse

/-- The net/url round trip `Parse` / `String` on the well-formed URLs the
examples construct: the identity. -/
def idUrlParse : GoString → Option GoString := fun s => some s

/-- An absolute call-site URL together with a configured base URL and a
query. -/
def rcAbsWithBase : RequestConfig := {
  BaseURL := str "www.x.com", Url := str "http://y.com/a",
  Query := some [(str "q", [str "1"])] }

/-- A base URL carrying two trailing separators. -/
def rcDoubleSlashBase : RequestConfig := {
  BaseURL := str "www.x.com//", Url := str "a" }

/-- Deterministic stand-ins for the external decompression libraries: the
gzip constructor validates the two magic header bytes exactly as Go
`gzip.NewReader` does before any data is returned, and the decoders are
simple total transforms. -/
def exampleCodecs : Codecs := {
  gzipNew := fun bs =>
    if bs.take 2 = [Char.ofNat 31, Char.ofNat 139] then .ok ()
    else .error (str "gzip: invalid header"),
  gzipDecode := fun bs => .ok (bs.drop 2),
  brotliNew := fun _ => .ok (),
  brotliDecode := fun bs => .ok bs,
  deflateDecode := fun bs => .ok bs }

/-- A wire request carrying one ordinary header and one cookie. -/
def reqStart : WireRequest :=
  ⟨str "POST", str "http://x.com/start",
    [(str "X-Token", [str "t"]), (keyCookie, [str "a=1"])], some 7⟩

/-- A POST configuration allowing five redirects. -/
def cfgPost : RequestConfig := { Method := str "POST", MaxRedirects := 5 }

/-- A 302 response pointing at a new location. -/
def respRedirect : Resp :=
  ⟨302, str "POST", [(keyLocation, [str "http://x.com/next"])], []⟩

/-- The wire request the loop builds from `reqStart` and `respRedirect`. -/
def reqRedirected : WireRequest :=
  ⟨str "POST", str "http://x.com/next",
    [(str "X-Token", [str "t"]), (keyCookie, [str "a=1; a=1"])], some 7⟩

/-- A 301 response without any `Location` header. -/
def respRedirectNoLocation : Resp := ⟨301, str "GET", [], []⟩

/-- A gzip-encoded response declaring a length of 1000 whose body does not
start with the gzip magic bytes. -/
def respGzipOversized : Resp :=
  ⟨200, str "GET",
    [(keyContentEncoding, [str "gzip"]), (keyContentLength, [str "1000"])],
    str "ab"⟩

/-- An unencoded response declaring a length of 100. -/
def respPlainOversized : Resp :=
  ⟨200, str "GET", [(keyContentLength, [str "100"])], str "hello"⟩

/-- A 204 HEAD response still declaring a gzip encoding; its body is not
valid gzip, so any attempt to construct the decompressor would fail. -/
def respSkip : Resp :=
  ⟨204, str "HEAD", [(keyContentEncoding, [str "gzip"])], str "raw"⟩

/-- A well-formed x-gzip response for `exampleCodecs`. -/
def respGzipOk : Resp :=
  ⟨200, str "GET", [(keyContentEncoding, [str "x-gzip"])],
    [Char.ofNat 31, Char.ofNat 139] ++ str "zz"⟩

/-- A brotli-encoded response. -/
def respBrotli : Resp :=
  ⟨200, str "GET", [(keyContentEncoding, [str "br"])], str "bb"⟩

/-- A deflate-encoded response. -/
def respDeflate : Resp :=
  ⟨200, str "GET", [(keyContentEncoding, [str "deflate"])], str "dd"⟩

/-- A response with an unrecognised content encoding. -/
def respUnknownEncoding : Resp :=
  ⟨200, str "GET", [(keyContentEncoding, [str "zstd"])], str "ii"⟩

/-- A response whose `Content-Length` does not parse as an integer and
whose actual body is longer than the maximum used with it. -/
def respBadLength : Resp :=
  ⟨200, str "GET", [(keyContentLength, [str "12ab"])], str "abcdef"⟩

/-- A structured body with no content-type header set and a JSON marshaller
that would succeed. -/
def rcStructNoCT : RequestConfig := {
  Body := some (.structured (str "v")), Header := [],
  JSONMarshal := fun s => .ok ('J' :: s) }

/-- A structured body with a JSON content type and a failing JSON
marshaller. -/
def rcStructJsonFail : RequestConfig := {
  Body := some (.structured (str "v")),
  Header := [(keyContentType, [str "application/json"])],
  JSONMarshal := fun _ => .error (str "boom") }

/-- A configuration with no body, no headers: everything defaulted. -/
def rcNilBody : RequestConfig := {}

/-- The configuration `bodyContentTypeStep` produces from `rcNilBody`. -/
def rcNilBodyAfter : RequestConfig := {
  Header := [(keyContentType, [defaultJsonContentType])] }

/-- A base URL with one trailing separator and a path with one leading
separator. -/
def rcSingleSlashBase : RequestConfig := {
  BaseURL := str "www.x.com/", Url := str "/a" }

/-! ## Claim theorems -/

/-- C1: evaluation of the redirect handling of `Surf.Request` at the
failing input.  A 302 with a `Location` header makes the loop build a new
request with the same method, the same body stream and the cloned ordinary
headers — but the `Cookie` header of the redirected request is
`a=1; a=1`, not the original `a=1`: `req.Header.Clone()` already carries
the `Cookie` line, and the subsequent `AddCookie` loop appends every parsed
cookie to it a second time, so cookies are not copied verbatim as the claim
(and the source comment) state. -/
theorem c1_redirect_duplicates_cookies :
    requestLoop exampleCodecs [] [] cfgPost reqStart 0 [respRedirect] =
      .awaitingTransport reqRedirected ∧
    reqRedirected.method = cfgPost.Method ∧
    reqRedirected.url = hGet respRedirect.headers keyLocation ∧
    reqRedirected.body = reqStart.body ∧
    hGet reqRedirected.headers (str "X-Token") = hGet reqStart.headers (str "X-Token") ∧
    hGet reqStart.headers keyCookie = str "a=1" ∧
    hGet reqRedirected.headers keyCookie = str "a=1; a=1" := by
  decide

/-- C2 counterexample: with a non-empty base URL, an absolute call-site URL
is returned without the configured query.  The claim demands
`http://y.com/a?q=1`; `BuildURL` returns `http://y.com/a`. -/
theorem c2_absolute_url_query_dropped :
    BuildURL idUrlParse rcAbsWithBase = str "http://y.com/a" ∧
    BuildURL idUrlParse rcAbsWithBase ≠ str "http://y.com/a?q=1" := by
  decide

/-- C2 amended: for every call-site URL containing `://`, `BuildURL`
ignores the base-URL join; when no base URL is configured the URL is
returned with parameters substituted and the query appended, but when a
base URL is configured the absolute URL is returned completely unmodified,
with no query appended. -/
theorem c2_amended_absolute_url (parse : GoString → Option GoString)
    (rc : RequestConfig) (habs : goContains rc.Url (str "://") = true) :
    BuildURL parse rc =
      if rc.BaseURL = [] then appendQueryToURL rc rc.Url else rc.Url := by
  unfold BuildURL
  by_cases hb : rc.BaseURL = []
  · simp [hb]
  · simp [hb, habs]

/-- C2 amended, witnessed at the counterexample input. -/
theorem c2_amended_absolute_url_witness :
    goContains rcAbsWithBase.Url (str "://") = true ∧
    BuildURL idUrlParse rcAbsWithBase = str "http://y.com/a" :=
  ⟨by decide,
    (c2_amended_absolute_url idUrlParse rcAbsWithBase (by decide)).trans (by decide)⟩

/-- C4 counterexample: a structured body with no content-type header set is
rejected with `ErrRequestDataTypeInvalid`; the claim demands the JSON
marshaller be used, which for the configured marshaller would produce the
bytes `Jv`. -/
theorem c4_no_content_type_is_error :
    getRequestBody rcStructNoCT = .error .requestDataTypeInvalid ∧
    getRequestBody rcStructNoCT ≠
      .ok (rcStructNoCT, some (.bytesReader ('J' :: str "v"))) := by
  have h1 : getRequestBody rcStructNoCT = .error .requestDataTypeInvalid := rfl
  exact ⟨h1, by rw [h1]; simp⟩

/-- C4 amended: a structured body is marshalled with the XML marshaller
when the currently-set content type is non-empty and XML-like, with the
JSON marshaller when it is non-empty and JSON-like, and is otherwise —
including when no content type is set — rejected with
`ErrRequestDataTypeInvalid`; a marshaller error is returned to the caller
unchanged. -/
theorem c4_amended_structured_marshalling (rc : RequestConfig) (v : GoString)
    (hbody : rc.Body = some (.structured v)) :
    getRequestBody rc =
      (if hGet rc.Header keyContentType ≠ [] ∧
          regXmlHeaderMatch (hGet rc.Header keyContentType) then
        match rc.XMLMarshal v with
        | .ok xmlData => .ok (rc, some (.bytesReader xmlData))
        | .error xmlErr => .error (.external xmlErr)
      else if hGet rc.Header keyContentType ≠ [] ∧
          regJsonHeaderMatch (hGet rc.Header keyContentType) then
        match rc.JSONMarshal v with
        | .ok jsonData => .ok (rc, some (.bytesReader jsonData))
        | .error jsonErr => .error (.external jsonErr)
      else .error .requestDataTypeInvalid) := by
  unfold getRequestBody
  rw [hbody]

/-- C4 amended, witnessed on a failing JSON marshaller under a JSON content
type: the marshal error is surfaced unchanged. -/
theorem c4_amended_structured_marshalling_witness :
    rcStructJsonFail.Body = some (.structured (str "v")) ∧
    getRequestBody rcStructJsonFail = .error (.external (str "boom")) :=
  ⟨rfl,
    (c4_amended_structured_marshalling rcStructJsonFail (str "v") rfl).trans (by rfl)⟩

/-- C5 counterexample: with a nil body and no content-type header present,
the body-resolution/content-type step is not a no-op on the header map — a
nil body interface matches no typed case of the Go type switch, falls into
the default branch, and the JSON default content type is set. -/
theorem c5_nil_body_sets_json_content_type :
    bodyContentTypeStep rcNilBody = .ok rcNilBodyAfter ∧
    hGet rcNilBodyAfter.Header keyContentType = defaultJsonContentType ∧
    defaultJsonContentType ≠ [] := by
  exact ⟨rfl, rfl, by decide⟩

/-- C5 amended: with a nil body and no content-type header present, the
body resolution itself produces no reader and changes nothing, but
`setContentTypeHeader` sets the JSON default content type, so the step
leaves the header map with exactly that one addition. -/
theorem c5_amended_nil_body_json_default (rc : RequestConfig)
    (hbody : rc.Body = none) (hct : hGet rc.Header keyContentType = []) :
    bodyContentTypeStep rc =
      .ok { rc with Header := hSet rc.Header keyContentType defaultJsonContentType } := by
  simp [bodyContentTypeStep, getRequestBody, setContentTypeHeader, hbody, hct]

/-- C5 amended, witnessed at the empty configuration. -/
theorem c5_amended_nil_body_json_default_witness :
    rcNilBody.Body = none ∧ hGet rcNilBody.Header keyContentType = [] ∧
    bodyContentTypeStep rcNilBody = .ok rcNilBodyAfter :=
  ⟨rfl, rfl, (c5_amended_nil_body_json_default rcNilBody rfl rfl).trans (by rfl)⟩

/-- C6: a redirect-range response without a `Location` header makes the
loop fail immediately with the dedicated error: the result does not depend
on the redirect counter, on the configured maximum, or on any further
scripted response — no counter increment and no further transport call can
be observed. -/
theorem c6_missing_location_fails_immediately (cs : Codecs)
    (pri rri : List ResponseInterceptor) (cfg : RequestConfig)
    (req : WireRequest) (redirects : Int) (resp : Resp) (rest : List Resp)
    (hlow : 300 ≤ resp.statusCode) (hhigh : resp.statusCode < 400)
    (hloc : hGet resp.headers keyLocation = []) :
    requestLoop cs pri rri cfg req redirects (resp :: rest) =
      .failure .redirectMissingLocation := by
  simp [requestLoop, hlow, hhigh, hloc]

/-- C6, witnessed on a 301 without headers. -/
theorem c6_missing_location_witness :
    300 ≤ respRedirectNoLocation.statusCode ∧
    respRedirectNoLocation.statusCode < 400 ∧
    hGet respRedirectNoLocation.headers keyLocation = [] ∧
    requestLoop exampleCodecs [] [] cfgPost reqStart 0 [respRedirectNoLocation] =
      .failure .redirectMissingLocation :=
  ⟨by decide, by decide, rfl,
    c6_missing_location_fails_immediately exampleCodecs [] [] cfgPost reqStart 0
      respRedirectNoLocation [] (by decide) (by decide) rfl⟩

/-- C7: the request-phase interceptor step of `prepareRequest` is exactly
the sequential run of the profile-level chain followed by the
descriptor-level chain: profile interceptors run first in registration
order, then descriptor interceptors in registration order, and the chain
runner stops at the first returned error, which becomes the returned error
of the whole phase. -/
theorem c7_profile_interceptors_run_first
    (profile descriptor : List RequestInterceptor) (rc : RequestConfig) :
    requestInterceptorPhase profile descriptor rc =
      invokeRequestInterceptors (profile ++ descriptor) rc := by
  induction profile generalizing rc with
  | nil => rfl
  | cons fn rest ih =>
    simp only [List.cons_append, requestInterceptorPhase, invokeRequestInterceptors]
    rcases hfn : fn rc with ⟨rc1, e⟩
    cases e with
    | none =>
      simpa [requestInterceptorPhase, invokeRequestInterceptors, hfn] using ih rc1
    | some err =>
      simp [requestInterceptorPhase, invokeRequestInterceptors, hfn]

/-! Helper lemmas about the Go string operations, used by the `BuildURL`
separator analysis. -/

theorem goContains_false_iff (s sub : GoString) :
    goContains s sub = false ↔ ¬sub <:+: s := by
  simp [goContains]

theorem goHasSuffix_false_iff (s suf : GoString) :
    goHasSuffix s suf = false ↔ ¬suf <:+ s := by
  simp [goHasSuffix]

theorem goHasSuffix_true_iff (s suf : GoString) :
    goHasSuffix s suf = true ↔ suf <:+ s := by
  simp [goHasSuffix]

/-- Appending the separator to a base that has no scheme separator and no
trailing slash cannot create a scheme separator: `://` ends in a slash, so
an occurrence crossing the boundary would force a trailing slash on the
base. -/
theorem append_slash_no_scheme (b : GoString)
    (hns : goContains b (str "://") = false)
    (hnsuf : goHasSuffix b (str "/") = false) :
    goContains (b ++ ['/']) (str "://") = false := by
  rw [goContains_false_iff] at hns ⊢
  rw [goHasSuffix_false_iff] at hnsuf
  intro hinf
  obtain ⟨s, t, hst⟩ := hinf
  rcases List.eq_nil_or_concat t with rfl | ⟨t1, c, rfl⟩
  · apply hnsuf
    have h2 : (s ++ [':', '/']) ++ ['/'] = b ++ ['/'] := by
      simpa [str, List.append_assoc] using hst
    have h3 := (List.append_inj' h2 rfl).1
    exact ⟨s ++ [':'], by rw [← h3]; simp [str]⟩
  · apply hns
    have h2 : (s ++ str "://" ++ t1) ++ [c] = b ++ ['/'] := by
      simpa [List.append_assoc, List.concat_eq_append] using hst
    have h3 := (List.append_inj' h2 rfl).1
    exact ⟨s, t1, h3⟩

/-- A base ending in exactly one slash is its trailing-slash strip plus
that slash. -/
theorem strip_of_single_slash (b : GoString)
    (h1 : goHasSuffix b (str "/") = true)
    (h2 : goHasSuffix b (str "//") = false) :
    stripTrailingSlashes b ++ ['/'] = b := by
  rw [goHasSuffix_true_iff] at h1
  rw [goHasSuffix_false_iff] at h2
  obtain ⟨l, hl⟩ := h1
  have hb : b = l ++ ['/'] := by simpa [str] using hl.symm
  subst hb
  suffices h : stripTrailingSlashes (l ++ ['/']) = l by rw [h]
  unfold stripTrailingSlashes
  rw [List.reverse_append]
  simp only [List.reverse_cons, List.reverse_nil, List.nil_append, List.singleton_append]
  rw [List.dropWhile_cons, if_pos (by decide)]
  cases hrl : l.reverse with
  | nil =>
    have : l = [] := by simpa using congrArg List.reverse hrl
    simp [this]
  | cons c cs =>
    have hc : c ≠ '/' := by
      intro hceq
      subst hceq
      apply h2
      have hlv : l = cs.reverse ++ ['/'] := by
        have := congrArg List.reverse hrl
        simpa using this
      exact ⟨cs.reverse, by rw [hlv]; simp [str]⟩
    rw [List.dropWhile_cons, if_neg (by simp [hc]), ← hrl, List.reverse_reverse]

/-- A base with no trailing slash is untouched by the trailing-slash
strip. -/
theorem strip_of_no_slash (b : GoString)
    (h : goHasSuffix b (str "/") = false) :
    stripTrailingSlashes b = b := by
  rw [goHasSuffix_false_iff] at h
  unfold stripTrailingSlashes
  cases hrb : b.reverse with
  | nil =>
    have : b = [] := by simpa using congrArg List.reverse hrb
    simp [this]
  | cons c cs =>
    have hc : c ≠ '/' := by
      intro hceq
      subst hceq
      apply h
      have hbv : b = cs.reverse ++ ['/'] := by
        have := congrArg List.reverse hrb
        simpa using this
      exact ⟨cs.reverse, by rw [hbv]; simp [str]⟩
    rw [List.dropWhile_cons, if_neg (by simp [hc]), ← hrb, List.reverse_reverse]

/-- With no parameters and no query configured, `appendQueryToURL` is the
identity. -/
theorem appendQueryToURL_id (rc : RequestConfig) (u : GoString)
    (hp : rc.Params = none) (hq : rc.Query = none) :
    appendQueryToURL rc u = u := by
  simp [appendQueryToURL, hp, hq]

/-- C3 counterexample: on a gzip-encoded response whose declared length
(1000) exceeds the maximum (10), `readBody` does not fail with the
size-guard error: the gzip reader construction runs first — in Go,
`gzip.NewReader` reads and validates the stream header bytes — and its
failure is what is returned, so the stream is consulted before the
declared-size check and the failure is not the guard the claim requires. -/
theorem c3_gzip_reader_error_preempts_size_guard :
    readBody exampleCodecs respGzipOversized 10 =
      .error (.gzipReaderFailed (str "gzip: invalid header")) ∧
    readBody exampleCodecs respGzipOversized 10 ≠ .error (.bodyTooLarge 10) := by
  decide

/-- C3 amended: once the decompression reader has been constructed
successfully (which for gzip and brotli encodings inspects the stream
first, and whose failure preempts everything else), a declared
`Content-Length` above a positive maximum fails with the exceeds-maximum
error before the body is read, and otherwise the wrapped stream is read
fully: the selected decompression transform is applied to the raw bytes,
its failure surfacing as the read error and its success as the decoded
body. -/
theorem c3_amended_size_guard_after_reader (cs : Codecs) (res : Resp)
    (mx : Int) (f : GoString → Except GoString GoString)
    (hsel : selectReader cs res = .ok f) :
    readBody cs res mx =
      (if mx > 0 ∧ declaredSize res > mx then .error (.bodyTooLarge mx)
       else
         match f res.body with
         | .error e => .error (.readFailed e)
         | .ok data => .ok data) := by
  unfold readBody
  rw [hsel]

/-- C3 amended, witnessed on an unencoded oversized response: with no
encoding the reader construction trivially succeeds and the guard fires. -/
theorem c3_amended_size_guard_witness :
    selectReader exampleCodecs respPlainOversized = .ok (fun b => .ok b) ∧
    readBody exampleCodecs respPlainOversized 5 = .error (.bodyTooLarge 5) :=
  ⟨rfl,
    (c3_amended_size_guard_after_reader exampleCodecs respPlainOversized 5
      (fun b => .ok b) rfl).trans (by decide)⟩

/-- C9: the decompression wrapping of `readBody` is skipped exactly for a
204 No Content response to a HEAD request — whose raw body is returned
untouched regardless of the declared encoding — while in every other case
a gzip-family encoding applies the gzip transform, `br` the brotli
transform, `deflate` the deflate transform, and an unrecognised or absent
encoding leaves the stream untouched. -/
theorem c9_decompression_selection (cs : Codecs) (res : Resp) (mx : Int)
    (d : GoString) :
    (res.statusCode = 204 ∧ res.reqMethod = str "HEAD" ∧
        ¬(mx > 0 ∧ declaredSize res > mx) →
      readBody cs res mx = .ok res.body) ∧
    ((res.statusCode ≠ 204 ∨ res.reqMethod ≠ str "HEAD") →
      (hGet res.headers keyContentEncoding = str "gzip" ∨
       hGet res.headers keyContentEncoding = str "x-gzip" ∨
       hGet res.headers keyContentEncoding = str "compress" ∨
       hGet res.headers keyContentEncoding = str "x-compress") →
      cs.gzipNew res.body = .ok () → ¬(mx > 0 ∧ declaredSize res > mx) →
      cs.gzipDecode res.body = .ok d →
      readBody cs res mx = .ok d) ∧
    ((res.statusCode ≠ 204 ∨ res.reqMethod ≠ str "HEAD") →
      hGet res.headers keyContentEncoding = str "br" →
      cs.brotliNew res.body = .ok () → ¬(mx > 0 ∧ declaredSize res > mx) →
      cs.brotliDecode res.body = .ok d →
      readBody cs res mx = .ok d) ∧
    ((res.statusCode ≠ 204 ∨ res.reqMethod ≠ str "HEAD") →
      hGet res.headers keyContentEncoding = str "deflate" →
      ¬(mx > 0 ∧ declaredSize res > mx) →
      cs.deflateDecode res.body = .ok d →
      readBody cs res mx = .ok d) ∧
    ((res.statusCode ≠ 204 ∨ res.reqMethod ≠ str "HEAD") →
      hGet res.headers keyContentEncoding ≠ str "gzip" →
      hGet res.headers keyContentEncoding ≠ str "x-gzip" →
      hGet res.headers keyContentEncoding ≠ str "compress" →
      hGet res.headers keyContentEncoding ≠ str "x-compress" →
      hGet res.headers keyContentEncoding ≠ str "br" →
      hGet res.headers keyContentEncoding ≠ str "deflate" →
      ¬(mx > 0 ∧ declaredSize res > mx) →
      readBody cs res mx = .ok res.body) := by
  refine ⟨?_, ?_, ?_, ?_, ?_⟩
  · rintro ⟨h204, hhead, hguard⟩
    have hskip : ¬(res.statusCode ≠ 204 ∨ res.reqMethod ≠ str "HEAD") := by
      simp [h204, hhead]
    simp [readBody, selectReader, hskip, hguard]
  · intro hnoskip henc hnew hguard hdec
    have hsel : selectReader cs res = .ok cs.gzipDecode := by
      rcases henc with h | h | h | h <;> simp [selectReader, hnoskip, h, hnew]
    simp [readBody, hsel, hguard, hdec]
  · intro hnoskip henc hnew hguard hdec
    have hsel : selectReader cs res = .ok cs.brotliDecode := by
      unfold selectReader
      simp only [henc]
      rw [if_pos hnoskip, if_neg (by decide), if_pos (by decide), hnew]
    simp [readBody, hsel, hguard, hdec]
  · intro hnoskip henc hguard hdec
    have hsel : selectReader cs res = .ok cs.deflateDecode := by
      unfold selectReader
      simp only [henc]
      rw [if_pos hnoskip, if_neg (by decide), if_neg (by decide), if_pos (by decide)]
    simp [readBody, hsel, hguard, hdec]
  · intro hnoskip h1 h2 h3 h4 h5 h6 hguard
    have hsel : selectReader cs res = .ok (fun b => .ok b) := by
      unfold selectReader
      rw [if_pos hnoskip, if_neg (by simp [h1, h2, h3, h4]), if_neg (by simp [h5]),
        if_neg (by simp [h6])]
    simp [readBody, hsel, hguard]

/-- C9, witnessed on all five cases: the 204 HEAD response is returned raw
even though its declared gzip encoding would fail to decode, and each
encoding case applies its transform. -/
theorem c9_decompression_selection_witness :
    readBody exampleCodecs respSkip 5 = .ok (str "raw") ∧
    readBody exampleCodecs respGzipOk 0 = .ok (str "zz") ∧
    readBody exampleCodecs respBrotli 0 = .ok (str "bb") ∧
    readBody exampleCodecs respDeflate 0 = .ok (str "dd") ∧
    readBody exampleCodecs respUnknownEncoding 0 = .ok (str "ii") :=
  ⟨(c9_decompression_selection exampleCodecs respSkip 5 []).1
      ⟨rfl, rfl, by decide⟩,
    (c9_decompression_selection exampleCodecs respGzipOk 0 (str "zz")).2.1
      (by decide) (by decide) (by decide) (by decide) (by decide),
    (c9_decompression_selection exampleCodecs respBrotli 0 (str "bb")).2.2.1
      (by decide) (by decide) (by decide) (by decide) (by decide),
    (c9_decompression_selection exampleCodecs respDeflate 0 (str "dd")).2.2.2.1
      (by decide) (by decide) (by decide) (by decide),
    (c9_decompression_selection exampleCodecs respUnknownEncoding 0 (str "ii")).2.2.2.2
      (by decide) (by decide) (by decide) (by decide) (by decide) (by decide)
      (by decide) (by decide)⟩

/-- C10: a response with no `Content-Length` header or a non-numeric one is
never rejected for exceeding the configured maximum body length: the
declared size evaluates to zero, the guard cannot fire for any maximum, and
the stream — of any actual length — is read fully and returned. -/
theorem c10_unparsed_length_skips_guard (cs : Codecs) (res : Resp) (mx : Int)
    (f : GoString → Except GoString GoString) (d : GoString)
    (hcl : hGet res.headers keyContentLength = [] ∨
      goAtoiOk (hGet res.headers keyContentLength) = false)
    (hsel : selectReader cs res = .ok f) (hdec : f res.body = .ok d) :
    readBody cs res mx = .ok d := by
  have hsize : declaredSize res = 0 := by
    unfold declaredSize
    rcases hcl with h | h
    · simp [h]
    · by_cases hne : hGet res.headers keyContentLength = []
      · simp [hne]
      · simp [hne, goAtoi, h]
  have hguard : ¬(mx > 0 ∧ (0 : Int) > mx) := by omega
  unfold readBody
  rw [hsel]
  simp [hsize, hguard, hdec]

/-- C10, witnessed on a non-numeric declared length with an actual body of
six bytes against a maximum of one. -/
theorem c10_unparsed_length_skips_guard_witness :
    goAtoiOk (hGet respBadLength.headers keyContentLength) = false ∧
    readBody exampleCodecs respBadLength 1 = .ok (str "abcdef") :=
  ⟨by decide,
    c10_unparsed_length_skips_guard exampleCodecs respBadLength 1
      (fun b => .ok b) (str "abcdef") (Or.inr (by decide)) rfl rfl⟩

/-- C8 counterexample: a base with two trailing separators keeps both of
them — `BuildURL` only appends a separator when the base lacks one and
never collapses extras, so base `www.x.com//` with path `a` yields
`https://www.x.com//a`, not the single-separator join the claim requires
for every base regardless of trailing separators. -/
theorem c8_double_slash_base_two_separators :
    BuildURL idUrlParse rcDoubleSlashBase = str "https://www.x.com//a" ∧
    BuildURL idUrlParse rcDoubleSlashBase ≠ str "https://www.x.com/a" := by
  decide

/-- C8 amended: for every non-empty scheme-less base URL with at most one
trailing separator and every relative URL (no parameters or query
configured, and the net/url round trip behaving as the identity on the
constructed URL), `BuildURL` prepends `https://` exactly once and joins the
separator-stripped base and the separator-stripped path with exactly one
separator; a path may carry any number of leading separators, but a base
with two or more trailing separators keeps the extras. -/
theorem c8_amended_single_separator_join (parse : GoString → Option GoString)
    (rc : RequestConfig)
    (hbase : rc.BaseURL ≠ [])
    (hnsB : goContains rc.BaseURL (str "://") = false)
    (hnsU : goContains rc.Url (str "://") = false)
    (hone : goHasSuffix rc.BaseURL (str "//") = false)
    (hparams : rc.Params = none) (hquery : rc.Query = none)
    (hparse : parse (str "https://" ++ stripTrailingSlashes rc.BaseURL ++
        '/' :: goTrimLeftSlash rc.Url) =
      some (str "https://" ++ stripTrailingSlashes rc.BaseURL ++
        '/' :: goTrimLeftSlash rc.Url)) :
    BuildURL parse rc =
      str "https://" ++ stripTrailingSlashes rc.BaseURL ++
        '/' :: goTrimLeftSlash rc.Url := by
  unfold BuildURL
  rw [if_neg hbase, if_neg (by simp [hnsU])]
  rcases hsufb : goHasSuffix rc.BaseURL (str "/") with _ | _
  · have hstrip := strip_of_no_slash rc.BaseURL hsufb
    have happ := append_slash_no_scheme rc.BaseURL hnsB hsufb
    simp only [hsufb, Bool.false_eq_true, if_false, happ]
    have harg : str "https://" ++ (rc.BaseURL ++ ['/']) ++ goTrimLeftSlash rc.Url =
        str "https://" ++ stripTrailingSlashes rc.BaseURL ++
          '/' :: goTrimLeftSlash rc.Url := by
      rw [hstrip]
      simp [List.append_assoc]
    rw [harg, hparse]
    exact appendQueryToURL_id rc _ hparams hquery
  · have hstrip := strip_of_single_slash rc.BaseURL hsufb hone
    simp only [hsufb, if_true, hnsB, Bool.false_eq_true, if_false]
    have harg : str "https://" ++ rc.BaseURL ++ goTrimLeftSlash rc.Url =
        str "https://" ++ stripTrailingSlashes rc.BaseURL ++
          '/' :: goTrimLeftSlash rc.Url := by
      conv_lhs => rw [← hstrip]
      simp [List.append_assoc]
    rw [harg, hparse]
    exact appendQueryToURL_id rc _ hparams hquery

/-- C8 amended, witnessed on base `www.x.com/` with path `/a`, which joins
to `https://www.x.com/a` with exactly one separator. -/
theorem c8_amended_single_separator_join_witness :
    (rcSingleSlashBase.BaseURL ≠ [] ∧
      goContains rcSingleSlashBase.BaseURL (str "://") = false ∧
      goContains rcSingleSlashBase.Url (str "://") = false ∧
      goHasSuffix rcSingleSlashBase.BaseURL (str "//") = false) ∧
    BuildURL idUrlParse rcSingleSlashBase = str "https://www.x.com/a" :=
  ⟨⟨by decide, by decide, by decide, by decide⟩,
    (c8_amended_single_separator_join idUrlParse rcSingleSlashBase
      (by decide) (by decide) (by decide) (by decide) rfl rfl rfl).trans
      (by decide)⟩

end Surf
